import Mathlib

set_option maxHeartbeats 1000000

namespace Sunrise

/-- A Go `time.Time` value as produced by `parseSunshineTimestamp`: broken-down
local-calendar fields (year, month, day, hour, minute, second, millisecond).
The Go zero value `time.Time{}` is January 1 of year 1, 00:00:00.000. -/
structure GoTime where
  year : Nat
  month : Nat
  day : Nat
  hour : Nat
  minute : Nat
  second : Nat
  milli : Nat
deriving Repr, DecidableEq

/-- The Go zero value `time.Time{}`: January 1, year 1, 00:00:00.000. -/
def GoTime.zeroValue : GoTime := ⟨1, 1, 1, 0, 0, 0, 0⟩

/-- Days from civil date to the 1970-01-01 epoch (Howard Hinnant's algorithm).
All years reachable from a parsed 4-digit timestamp give `y ≥ -1` after the
March shift, where Lean's flooring `Int` division agrees with the intended
result. -/
def daysFromCivil (y m d : Int) : Int :=
  let y' : Int := if m ≤ 2 then y - 1 else y
  let era : Int := (if 0 ≤ y' then y' else y' - 399) / 400
  let yoe : Int := y' - era * 400
  let doy : Int := (153 * (if 2 < m then m - 3 else m + 9) + 2) / 5 + d - 1
  let doe : Int := yoe * 365 + yoe / 4 - yoe / 100 + doy
  era * 146097 + doe - 719468

/-- The instant denoted by a `GoTime`, in nanoseconds relative to the Unix
epoch in the (fixed) local zone. Go's `time.Time` comparisons (`After`,
`IsZero`) compare instants; for times expressed in one zone the constant zone
offset cancels, so it is omitted. -/
def GoTime.toNanos (t : GoTime) : Int :=
  ((((daysFromCivil t.year t.month t.day * 24 + (t.hour : Int)) * 60
      + (t.minute : Int)) * 60 + (t.second : Int)) * 1000 + (t.milli : Int))
    * 1000000

/-- Go `t.After(u)`: the instant of `t` is strictly later than that of `u`. -/
def GoTime.after (t u : GoTime) : Bool := decide (u.toNanos < t.toNanos)

/-- Go `t.IsZero()`: `t` denotes the same instant as the zero value. -/
def GoTime.isZero (t : GoTime) : Bool := decide (t.toNanos = GoTime.zeroValue.toNanos)

/-- `needle` is a prefix of `haystack` (char lists compared left to right). -/
def listPrefixOf : List Char → List Char → Bool
  | [], _ => true
  | _ :: _, [] => false
  | a :: as, b :: bs => a == b && listPrefixOf as bs

/-- `needle` occurs as a contiguous run somewhere in `haystack`. -/
def listContains (needle : List Char) : List Char → Bool
  | [] => listPrefixOf needle []
  | c :: cs => listPrefixOf needle (c :: cs) || listContains needle cs

/-- Go `strings.Contains(s, substr)`: substring containment (an empty
substring is contained in every string). -/
def goContains (s substr : String) : Bool := listContains substr.toList s.toList

/-- Value of a decimal digit character, if it is one. -/
def digitVal (c : Char) : Option Nat :=
  if c.isDigit then some (c.toNat - 48) else none

/-- Whether `y` is a leap year (Gregorian rule, as in Go's `time` package). -/
def leapYear (y : Nat) : Bool := y % 4 == 0 && (y % 100 != 0 || y % 400 == 0)

/-- Number of days in month `m` of year `y`, as validated by Go's time parser. -/
def daysInMonth (y m : Nat) : Nat :=
  if m = 2 then (if leapYear y then 29 else 28)
  else if m = 4 ∨ m = 6 ∨ m = 9 ∨ m = 11 then 30 else 31

/-- Range validation performed by Go's `time.Parse` on the layout
`"2006-01-02 15:04:05.000"`: month 1..12, day 1..daysInMonth, hour ≤ 23,
minute ≤ 59, second ≤ 59. -/
def validTime (t : GoTime) : Bool :=
  1 ≤ t.month && t.month ≤ 12 && 1 ≤ t.day && t.day ≤ daysInMonth t.year t.month
    && t.hour ≤ 23 && t.minute ≤ 59 && t.second ≤ 59

/-- Read exactly `n` decimal digits from the front of `cs`, returning their
value and the remaining characters. -/
def readFixedDigits : Nat → List Char → Nat → Option (Nat × List Char)
  | 0, cs, acc => some (acc, cs)
  | _ + 1, [], _ => none
  | n + 1, c :: cs, acc =>
    match digitVal c with
    | some v => readFixedDigits n cs (acc * 10 + v)
    | none => none

/-- Read one or two decimal digits (Go's `stdHour` in layout `"15"` is parsed
with `getnum(value, false)`, which takes a second digit only if present). -/
def readHour : List Char → Option (Nat × List Char)
  | [] => none
  | c :: cs =>
    match digitVal c with
    | none => none
    | some v =>
      match cs with
      | [] => some (v, [])
      | c' :: cs' =>
        match digitVal c' with
        | some v' => some (v * 10 + v', cs')
        | none => some (v, c' :: cs')

/-- Consume a required literal separator character. -/
def expectChar (c : Char) : List Char → Option (List Char)
  | [] => none
  | c' :: cs => if c' = c then some cs else none

/-- Parse the bracket-free time portion against Go layout
`"2006-01-02 15:04:05.000"`: a 4-digit year, 2-digit month and day, an hour of
one or two digits, 2-digit minute and second, and exactly 3 fractional digits;
the whole portion must be consumed and the fields must pass Go's range
validation. -/
def parseTimePortion (cs : List Char) : Option GoTime := do
  let (y, cs) ← readFixedDigits 4 cs 0
  let cs ← expectChar '-' cs
  let (mo, cs) ← readFixedDigits 2 cs 0
  let cs ← expectChar '-' cs
  let (d, cs) ← readFixedDigits 2 cs 0
  let cs ← expectChar ' ' cs
  let (h, cs) ← readHour cs
  let cs ← expectChar ':' cs
  let (mi, cs) ← readFixedDigits 2 cs 0
  let cs ← expectChar ':' cs
  let (s, cs) ← readFixedDigits 2 cs 0
  let cs ← expectChar '.' cs
  let (f, cs) ← readFixedDigits 3 cs 0
  match cs with
  | [] =>
    let t : GoTime := ⟨y, mo, d, h, mi, s, f⟩
    if validTime t then some t else none
  | _ :: _ => none

/-- The characters of `cs` strictly before the first `']'`, or `none` when no
`']'` occurs (Go `strings.Index(line, "]") == -1`). -/
def beforeRBracket : List Char → Option (List Char)
  | [] => none
  | c :: cs => if c = ']' then some [] else (beforeRBracket cs).map (c :: ·)

/-- Go `parseSunshineTimestamp`: the line must start with `'['` and contain a
`']'`; the portion between them is parsed in the local zone against layout
`"2006-01-02 15:04:05.000"`. Errors are collapsed to `none` (the callers only
test `err != nil`). -/
def parseSunshineTimestamp (line : String) : Option GoTime :=
  match line.toList with
  | '[' :: rest =>
    match beforeRBracket rest with
    | none => none
    | some portion => parseTimePortion portion
  | _ => none

/-- The `config` struct read from the TOML file. A field absent from the file
keeps its Go zero value (`""` for strings, `0`, `false`). -/
structure Config where
  SunriseCheckSeconds : Int
  SunshineLogPath : String
  MonitorIsOffLogLine : String
  EncoderFailedLogLine : String
  EncoderFailedLogLine2 : String
  WakeMonitorSleepSeconds : Int
  StopSunshineCommand : String
  StartSunshineCommand : String
  WakeMonitorCommand : String
  EnableSunshineRestart : Bool
  RestartOnEncoderFailure : Bool
deriving Repr, DecidableEq

/-- The package-level mutable variables the scan functions read and write:
`lastLogSize` (an `int64`), and the per-category dedup timestamps. -/
structure State where
  lastLogSize : Int
  lastMonitorMissingTime : GoTime
  lastEncoderFailureTime : GoTime
deriving Repr, DecidableEq

/-- Go `resetMonitorTracking`: both dedup timestamps are set to the zero
value `time.Time{}`. -/
def resetMonitorTracking (s : State) : State :=
  { s with lastMonitorMissingTime := GoTime.zeroValue,
           lastEncoderFailureTime := GoTime.zeroValue }

/-- The scanner's maximum token size: `scanner.Buffer(make([]byte, 1024),
1024*1024)`. -/
def maxTokenSize : Nat := 1024 * 1024

/-- Whether a line makes `bufio.Scanner` fail with `ErrTooLong`. A line of
`L` bytes followed by a terminator needs `L + 1` bytes in the scanner's
buffer (capped at `maxTokenSize`) before the terminator is visible, so the
scan fails exactly when `L ≥ maxTokenSize`. -/
def lineTooLong (line : String) : Bool := decide (maxTokenSize ≤ line.utf8ByteSize)

/-- The value of `scanner.Err()` after the line loop: `bufio.ErrTooLong`
("token too long") when some line exceeds the buffer bound, `nil` otherwise. -/
def scannerErr (lines : List String) : Option String :=
  if lines.any lineTooLong then some "bufio.Scanner: token too long" else none

/-- Go `isBufferOverflow` on a non-nil error: the error text contains
"token too long". -/
def isBufferOverflow (err : String) : Bool := goContains err "token too long"

/-- One iteration of the scan loop body: skip lines that do not match, skip
matching lines whose timestamp does not parse, otherwise keep the later of
the accumulated and the parsed timestamp. -/
def latestStep (matchesLine : String → Bool) (acc : GoTime) (line : String) : GoTime :=
  if matchesLine line then
    match parseSunshineTimestamp line with
    | some entryTime => if entryTime.after acc then entryTime else acc
    | none => acc
  else acc

/-- `latestOccurrence` after the scan loop: fold of `latestStep` over all
yielded lines, starting from the zero value. -/
def scanLatest (matchesLine : String → Bool) (lines : List String) : GoTime :=
  lines.foldl (latestStep matchesLine) GoTime.zeroValue

/-- The line filter of `isMonitorSleeping`: `strings.Contains(line,
c.MonitorIsOffLogLine)`. -/
def monitorMatches (cfg : Config) (line : String) : Bool :=
  goContains line cfg.MonitorIsOffLogLine

/-- The line filter of `isEncoderFailed`: the two configured encoder-failure
patterns are OR-ed. -/
def encoderMatches (cfg : Config) (line : String) : Bool :=
  goContains line cfg.EncoderFailedLogLine || goContains line cfg.EncoderFailedLogLine2

/-- The `(bool, error)` result of a scan function. `corrupted` is the branch
that calls `handleCorruptedLog` (returning `false` together with the
handler's error); `scanErr` is the branch returning a non-overflow scanner
error; `statErr`/`openErr` are the early returns on `os.Stat`/`os.Open`
failure. -/
inductive ScanReturn where
  | statErr
  | openErr
  | corrupted
  | scanErr
  | ok (b : Bool)
deriving Repr, DecidableEq

/-- Go `isMonitorSleeping`, with the outside world supplied explicitly:
`statRes` is what `os.Stat` reports for the log (`none` = error), `openRes`
is the list of lines the scanner yields from the opened file (`none` =
`os.Open` error). Faithful ordering: the rotation check and the
`lastLogSize` update happen after the stat and before the open; the dedup
comparison happens only when the scanner finished without error. -/
def isMonitorSleeping (cfg : Config) (statRes : Option Int)
    (openRes : Option (List String)) (s : State) : ScanReturn × State :=
  match statRes with
  | none => (.statErr, s)
  | some size =>
    let s := if size < s.lastLogSize then resetMonitorTracking s else s
    let s := { s with lastLogSize := size }
    match openRes with
    | none => (.openErr, s)
    | some lines =>
      match scannerErr lines with
      | some err => if isBufferOverflow err then (.corrupted, s) else (.scanErr, s)
      | none =>
        let latestOccurrence := scanLatest (monitorMatches cfg) lines
        if latestOccurrence.isZero then (.ok false, s)
        else if s.lastMonitorMissingTime.isZero
            || latestOccurrence.after s.lastMonitorMissingTime then
          (.ok true, { s with lastMonitorMissingTime := latestOccurrence })
        else (.ok false, s)

/-- Go `isEncoderFailed` (current `main.go`). Unlike `isMonitorSleeping` it
performs no rotation check: it only records the fresh size in `lastLogSize`. -/
def isEncoderFailed (cfg : Config) (statRes : Option Int)
    (openRes : Option (List String)) (s : State) : ScanReturn × State :=
  match statRes with
  | none => (.statErr, s)
  | some size =>
    let s := { s with lastLogSize := size }
    match openRes with
    | none => (.openErr, s)
    | some lines =>
      match scannerErr lines with
      | some err => if isBufferOverflow err then (.corrupted, s) else (.scanErr, s)
      | none =>
        let latestOccurrence := scanLatest (encoderMatches cfg) lines
        if latestOccurrence.isZero then (.ok false, s)
        else if s.lastEncoderFailureTime.isZero
            || latestOccurrence.after s.lastEncoderFailureTime then
          (.ok true, { s with lastEncoderFailureTime := latestOccurrence })
        else (.ok false, s)

/-- One entry of the `/proc` directory as read by `getSunshinePIDs`: the
entry name, whether it is a directory, and the contents of
`/proc/<name>/comm` when readable. -/
structure ProcEntry where
  name : String
  isDir : Bool
  comm : Option String
deriving Repr, DecidableEq

/-- A snapshot of the OS process table (`/proc`). -/
abbrev ProcFS := List ProcEntry

/-- Go `strconv.Atoi`: optional sign, at least one digit, nothing else, and
the value must fit a 64-bit `int`. -/
def goAtoi (str : String) : Option Int :=
  let core : List Char → Option Int := fun ds =>
    match ds with
    | [] => none
    | _ :: _ =>
      let rec toNum : List Char → Nat → Option Nat
        | [], acc => some acc
        | c :: cs, acc =>
          match digitVal c with
          | some v => toNum cs (acc * 10 + v)
          | none => none
      (toNum ds 0).map Int.ofNat
  match str.toList with
  | '+' :: rest => (core rest).bind fun n => if n ≤ 9223372036854775807 then some n else none
  | '-' :: rest => (core rest).bind fun n => if n ≤ 9223372036854775808 then some (-n) else none
  | other => (core other).bind fun n => if n ≤ 9223372036854775807 then some n else none

/-- Characters treated as space by Go `strings.TrimSpace` for the Latin-1
range (the `/proc/<pid>/comm` content is ASCII, ending in a newline). -/
def isGoSpace (c : Char) : Bool :=
  c = ' ' || c = '\t' || c = '\n' || c = '\r' ||
    c = Char.ofNat 11 || c = Char.ofNat 12 || c = Char.ofNat 133 || c = Char.ofNat 160

/-- Go `strings.TrimSpace`: drop space characters from both ends. -/
def goTrimSpace (str : String) : String :=
  String.mk (((str.toList.dropWhile isGoSpace).reverse.dropWhile isGoSpace).reverse)

/-- Go `getSunshinePIDs`: walk the `/proc` entries in order; keep directory
entries whose name parses as a PID and whose `comm` file reads (after
trimming) exactly `"sunshine"`. -/
def getSunshinePIDs (fs : ProcFS) : List Int :=
  fs.filterMap fun e =>
    if !e.isDir then none
    else
      match goAtoi e.name with
      | none => none
      | some pid =>
        match e.comm with
        | none => none
        | some data => if goTrimSpace data = "sunshine" then some pid else none

/-- Go `countSunshineProcesses`. -/
def countSunshineProcesses (fs : ProcFS) : Nat := (getSunshinePIDs fs).length

/-- The poll loop of `waitForServiceActive`: try `is-active` at indices
`i, i+1, ...` while fuel remains; report the index of the first success. -/
def waitPoll (isActive : Nat → Bool) : Nat → Nat → Option Nat
  | _, 0 => none
  | i, fuel + 1 => if isActive i then some i else waitPoll isActive (i + 1) fuel

/-- Go `waitForServiceActive(serviceName, timeoutSeconds)`: poll
`systemctl --user is-active` once per second, up to `timeoutSeconds` polls;
`some i` is the second at which the service first reported active, `none` is
the timeout error return. -/
def waitForServiceActive (serviceName : String) (timeoutSeconds : Nat)
    (isActive : Nat → Bool) : Option Nat :=
  waitPoll isActive 0 timeoutSeconds

/-- External observations consumed by `restartSunshineSystemctlOnly`:
the exit status of `systemctl --user restart sunshine`, the per-second
results of the `is-active` polls, and the process-table snapshot an observer
would see when the call returns (the function itself never reads it). -/
structure RestartWorld where
  restartOk : Bool
  isActive : Nat → Bool
  procfs : ProcFS

/-- Go `restartSunshineSystemctlOnly` (current `main.go`): `systemctl
restart`, then `waitForServiceActive("sunshine", 30)`; on success it also
resets `lastLogPosition` and `lastMainLoopTime` (not modelled here). It
never enumerates processes. -/
def restartSunshineSystemctlOnly (w : RestartWorld) : Except String Unit :=
  if !w.restartOk then .error "systemctl restart failed"
  else
    match waitForServiceActive "sunshine" 30 w.isActive with
    | none => .error "timeout waiting for sunshine"
    | some _ => .ok ()

/-- Observable steps of `handleCorruptedLog`. -/
inductive CorruptStep where
  | truncateLog
  | invokeRestart
deriving Repr, DecidableEq

/-- Go `handleCorruptedLog`: truncate the log to zero bytes; if truncation
fails return that error (without restarting); otherwise return the result of
`restartSunshineSystemctlOnly`. `truncateRes` is the result of
`os.Truncate(c.SunshineLogPath, 0)` (`none` = success). The second component
records the effects performed, in order. -/
def handleCorruptedLog (truncateRes : Option String) (w : RestartWorld) :
    Except String Unit × List CorruptStep :=
  match truncateRes with
  | some err => (.error err, [])
  | none => (restartSunshineSystemctlOnly w, [.truncateLog, .invokeRestart])

/-- Observable actions of `killAllSunshineProcesses`, in program order. -/
inductive KillAction where
  | enumerate
  | signal (pid : Int) (sig : Nat) (ok : Bool)
  | sleepSeconds (n : Nat)
deriving Repr, DecidableEq

/-- The `for _, pid := range pids` loops: send `sig` to every listed PID in
order; a failed `kill` is logged (recorded as `ok := false`) and the loop
continues. -/
def signalEach (killFails : Int → Nat → Bool) (sig : Nat) : List Int → List KillAction
  | [] => []
  | pid :: rest => .signal pid sig (!killFails pid sig) :: signalEach killFails sig rest

/-- Go `killAllSunshineProcesses`: enumerate PIDs fresh (`fs1`), return at
once if none; otherwise SIGTERM (15) each, sleep 2 s, re-enumerate fresh
(`fs2`), and SIGKILL (9) each PID of the re-enumeration if any remain. The
function's `error` result is `nil` on every path. -/
def killAllSunshineProcesses (fs1 fs2 : ProcFS) (killFails : Int → Nat → Bool) :
    List KillAction × Except String Unit :=
  let pids := getSunshinePIDs fs1
  if pids.length = 0 then ([.enumerate], .ok ())
  else
    let terms := signalEach killFails 15 pids
    let remainingPids := getSunshinePIDs fs2
    let kills :=
      if remainingPids.length > 0 then signalEach killFails 9 remainingPids else []
    ([.enumerate] ++ terms ++ [.sleepSeconds 2, .enumerate] ++ kills, .ok ())

/-- The PIDs a trace signalled with signal number `sig`, in order. -/
def signalledWith (sig : Nat) (trace : List KillAction) : List Int :=
  trace.filterMap fun a =>
    match a with
    | .signal pid s _ => if s = sig then some pid else none
    | _ => none

/-- `cooldownPeriod := 2 * time.Minute` from `runWakeOnConnect`, in
nanoseconds. -/
def wakeCooldownPeriod : Int := 2 * 60 * 1000000000

/-- Go `time.Since(t)` evaluated at instant `now`. -/
def timeSince (now t : GoTime) : Int := now.toNanos - t.toNanos

/-- Go `shouldWakeMonitor`: skip the wake when the last "ready" marker
(`lastMainLoopTime`) is within the cooldown of `now`, or the last wake
attempt (`lastWakeTime`) is; wake otherwise. -/
def shouldWakeMonitor (cooldownPeriod : Int) (now lastMainLoopTime lastWakeTime : GoTime) :
    Bool :=
  if timeSince now lastMainLoopTime < cooldownPeriod then false
  else if timeSince now lastWakeTime < cooldownPeriod then false
  else true

/-- Go `checkForMainLoop`: on `os.Open` failure log and report not-ready
with `lastMainLoopTime` unchanged; otherwise look for the first line
containing "Starting main loop", update `lastMainLoopTime` to its parsed
timestamp (or to `time.Now()` when the timestamp does not parse) and report
ready; report not-ready when no line matches. -/
def checkForMainLoop (openRes : Option (List String)) (now lastMainLoopTime : GoTime) :
    Bool × GoTime :=
  match openRes with
  | none => (false, lastMainLoopTime)
  | some lines =>
    match lines.find? (fun line => goContains line "Starting main loop") with
    | some line =>
      match parseSunshineTimestamp line with
      | some entryTime => (true, entryTime)
      | none => (true, now)
    | none => (false, lastMainLoopTime)

/-- How an iteration of the periodic loop in `main` ends. -/
inductive TickOutcome where
  | continueTick
  | fatalExit
deriving Repr, DecidableEq

/-- The body of the ticker loop in the current `main`: when
`RestartOnEncoderFailure` is set, a scan error is logged and the iteration
`continue`s; a triggered scan invokes `restartSunshineSystemctlOnly` (whose
error is only logged). The loop never exits. The second component records
whether the restart was invoked. -/
def mainTick (restartOnEncoderFailure : Bool) (scanResult : ScanReturn) :
    TickOutcome × Bool :=
  if restartOnEncoderFailure then
    match scanResult with
    | .ok true => (.continueTick, true)
    | .ok false => (.continueTick, false)
    | _ => (.continueTick, false)
  else (.continueTick, false)

/-- One call of a classification scan, with its observed world. -/
inductive ScanCall where
  | monitor (statRes : Option Int) (openRes : Option (List String))
  | encoder (statRes : Option Int) (openRes : Option (List String))

/-- State transition of one scan call. -/
def scanStep (cfg : Config) (s : State) : ScanCall → State
  | .monitor statRes openRes => (isMonitorSleeping cfg statRes openRes s).2
  | .encoder statRes openRes => (isEncoderFailed cfg statRes openRes s).2

/-- Run a sequence of scan calls from state `s`. -/
def runScans (cfg : Config) (s : State) : List ScanCall → State
  | [] => s
  | call :: rest => runScans cfg (scanStep cfg s call) rest

/-- Whether a call takes the rotation-reset branch from state `s`: only the
monitor scan checks the stat size against `lastLogSize`. -/
def rotationTriggered (s : State) : ScanCall → Bool
  | .monitor (some size) _ => decide (size < s.lastLogSize)
  | _ => false

/-- No call of the sequence takes the rotation-reset branch (evaluated along
the states the sequence produces). -/
def noRotationFrom (cfg : Config) (s : State) : List ScanCall → Bool
  | [] => true
  | call :: rest =>
    !rotationTriggered s call && noRotationFrom cfg (scanStep cfg s call) rest

end Sunrise

namespace SunriseMid

/-- Observable steps of the manual restart sequence, in program order. -/
inductive RestartStep where
  | stop
  | graceWait
  | killAll
  | terminationWait
  | forceKillEscalation
  | truncateLog
  | start
  | verifyRunning
deriving Repr, DecidableEq

/-- External observations consumed by `restartSunshineManual`, in the order
the sequence queries them: the result of `stopSunshineProperly` (logged
only), the two process-table snapshots used inside
`killAllSunshineProcesses`, the snapshot of the `VerifyClear` count check,
the result of `os.Truncate` (logged only), the result of
`startSunshineProperly`, and the snapshot of the final verification count. -/
structure ManualWorld where
  stopErr : Option String
  fsKill1 : Sunrise.ProcFS
  fsKill2 : Sunrise.ProcFS
  killFails : Int → Nat → Bool
  fsVerifyClear : Sunrise.ProcFS
  truncateErr : Option String
  startErr : Option String
  fsVerifyRunning : Sunrise.ProcFS

/-- Go `restartSunshineManual` (`part_002`, systemd-preferred variant, whose
`getSunshinePIDs`/`countSunshineProcesses`/`killAllSunshineProcesses` are
identical to the current `main.go` ones reused here): stop (error logged),
3 s grace wait, graduated kill, 5 s termination wait, escalation
(`forceKillAllSunshine` + 2 s) when processes remain, log truncation (error
logged), start (error fatal), 5 s settle, and final verification treating a
zero count as failure. Returns the error result and the performed steps. -/
def restartSunshineManual (w : ManualWorld) : Except String Unit × List RestartStep :=
  let killTrace := Sunrise.killAllSunshineProcesses w.fsKill1 w.fsKill2 w.killFails
  let preSteps := [RestartStep.stop, .graceWait, .killAll, .terminationWait]
  let preSteps :=
    if Sunrise.countSunshineProcesses w.fsVerifyClear > 0 then
      preSteps ++ [RestartStep.forceKillEscalation]
    else preSteps
  let preSteps := preSteps ++ [RestartStep.truncateLog]
  match killTrace.2, w.startErr with
  | _, some err => (.error ("failed to start sunshine: " ++ err), preSteps ++ [.start])
  | _, none =>
    if Sunrise.countSunshineProcesses w.fsVerifyRunning = 0 then
      (.error "sunshine failed to start", preSteps ++ [.start, .verifyRunning])
    else (.ok (), preSteps ++ [.start, .verifyRunning])

end SunriseMid

namespace SunriseOld

/-- The body of the ticker loop of the legacy `main` (`part_002`): a scan
error from either `isMonitorSleeping` or (when enabled) `isEncoderFailed`
hits `log.Fatal`, which exits the process; otherwise the iteration wakes the
monitor or restarts sunshine and continues. Scan results are the Go
`(bool, error)` pairs. -/
def legacyMainTick (restartOnEncoderFailure : Bool)
    (monitorScan encoderScan : Except String Bool) : Sunrise.TickOutcome :=
  match monitorScan with
  | .error _ => .fatalExit
  | .ok true => .continueTick
  | .ok false =>
    if restartOnEncoderFailure then
      match encoderScan with
      | .error _ => .fatalExit
      | .ok _ => .continueTick
    else .continueTick

end SunriseOld

open Sunrise

theorem GoTime.after_irrefl (t : GoTime) : t.after t = false := by
  simp [GoTime.after]

theorem latestStep_le (m : String → Bool) (acc : GoTime) (line : String) :
    acc.toNanos ≤ (latestStep m acc line).toNanos := by
  unfold latestStep
  split
  · split
    · rename_i t _
      split
      · rename_i h
        exact le_of_lt (of_decide_eq_true h)
      · exact le_refl _
    · exact le_refl _
  · exact le_refl _

theorem foldl_latestStep_le (m : String → Bool) (lines : List String) (acc : GoTime) :
    acc.toNanos ≤ (List.foldl (latestStep m) acc lines).toNanos := by
  induction lines generalizing acc with
  | nil => exact le_refl _
  | cons l ls ih =>
    exact le_trans (latestStep_le m acc l) (ih (latestStep m acc l))

theorem scanLatest_le (m : String → Bool) (lines : List String) :
    GoTime.zeroValue.toNanos ≤ (scanLatest m lines).toNanos :=
  foldl_latestStep_le m lines GoTime.zeroValue

theorem latestStep_unmatched (m : String → Bool) (acc : GoTime) (line : String)
    (h : m line = false) : latestStep m acc line = acc := by
  simp [latestStep, h]

theorem foldl_latestStep_unmatched (m : String → Bool) (extra : List String)
    (h : ∀ l ∈ extra, m l = false) (acc : GoTime) :
    List.foldl (latestStep m) acc extra = acc := by
  induction extra generalizing acc with
  | nil => rfl
  | cons l ls ih =>
    rw [List.foldl_cons, latestStep_unmatched m acc l (h l (List.mem_cons_self l ls))]
    exact ih (fun x hx => h x (List.mem_cons_of_mem l hx)) acc

theorem scanLatest_append_unmatched (m : String → Bool) (lines extra : List String)
    (h : ∀ l ∈ extra, m l = false) :
    scanLatest m (lines ++ extra) = scanLatest m lines := by
  unfold scanLatest
  rw [List.foldl_append]
  exact foldl_latestStep_unmatched m extra h _

theorem isMonitorSleeping_lastLogSize (cfg : Config) (size : Int)
    (openRes : Option (List String)) (s : State) :
    ((isMonitorSleeping cfg (some size) openRes s).2).lastLogSize = size := by
  unfold isMonitorSleeping
  cases openRes with
  | none => rfl
  | some lines =>
    simp only
    repeat' first | rfl | split

theorem isEncoderFailed_lastLogSize (cfg : Config) (size : Int)
    (openRes : Option (List String)) (s : State) :
    ((isEncoderFailed cfg (some size) openRes s).2).lastLogSize = size := by
  unfold isEncoderFailed
  cases openRes with
  | none => rfl
  | some lines =>
    simp only
    repeat' first | rfl | split

theorem isMonitorSleeping_post (cfg : Config) (size : Int) (lines : List String) (s : State)
    (hcorr : lines.any lineTooLong = false)
    (hL : (scanLatest (monitorMatches cfg) lines).isZero = false) :
    ((isMonitorSleeping cfg (some size) (some lines) s).2).lastMonitorMissingTime.isZero = false
      ∧ (scanLatest (monitorMatches cfg) lines).after
          ((isMonitorSleeping cfg (some size) (some lines) s).2).lastMonitorMissingTime = false := by
  have hscan : scannerErr lines = none := by simp [scannerErr, hcorr]
  have hL' : ¬ ((scanLatest (monitorMatches cfg) lines).isZero = true) := by simp [hL]
  by_cases hrot : size < s.lastLogSize
  · simp only [isMonitorSleeping, hscan, if_pos hrot, if_neg hL']
    split
    · exact ⟨hL, GoTime.after_irrefl _⟩
    · rename_i h
      rw [Bool.or_eq_true] at h
      push_neg at h
      exact ⟨Bool.eq_false_iff.mpr h.1, Bool.eq_false_iff.mpr h.2⟩
  · simp only [isMonitorSleeping, hscan, if_neg hrot, if_neg hL']
    split
    · exact ⟨hL, GoTime.after_irrefl _⟩
    · rename_i h
      rw [Bool.or_eq_true] at h
      push_neg at h
      exact ⟨Bool.eq_false_iff.mpr h.1, Bool.eq_false_iff.mpr h.2⟩

theorem isEncoderFailed_post (cfg : Config) (size : Int) (lines : List String) (s : State)
    (hcorr : lines.any lineTooLong = false)
    (hL : (scanLatest (encoderMatches cfg) lines).isZero = false) :
    ((isEncoderFailed cfg (some size) (some lines) s).2).lastEncoderFailureTime.isZero = false
      ∧ (scanLatest (encoderMatches cfg) lines).after
          ((isEncoderFailed cfg (some size) (some lines) s).2).lastEncoderFailureTime = false := by
  have hscan : scannerErr lines = none := by simp [scannerErr, hcorr]
  have hL' : ¬ ((scanLatest (encoderMatches cfg) lines).isZero = true) := by simp [hL]
  simp only [isEncoderFailed, hscan, if_neg hL']
  split
  · exact ⟨hL, GoTime.after_irrefl _⟩
  · rename_i h
    rw [Bool.or_eq_true] at h
    push_neg at h
    exact ⟨Bool.eq_false_iff.mpr h.1, Bool.eq_false_iff.mpr h.2⟩

/-- C1: Dedup idempotence — for every log content and stored state, a second
run of `isMonitorSleeping`/`isEncoderFailed` on content extended only by
non-matching lines (so the file has not shrunk: `sz1 ≤ sz2`) never reports
triggered: the first triggering call stored the maximum parsed timestamp and
a repeat comparison is not strictly greater. -/
theorem c1_dedup_idempotent :
    (∀ (cfg : Config) (s : State) (sz1 sz2 : Int) (lines extra : List String),
      sz1 ≤ sz2 →
      (∀ l ∈ extra, monitorMatches cfg l = false) →
      (isMonitorSleeping cfg (some sz2) (some (lines ++ extra))
          (isMonitorSleeping cfg (some sz1) (some lines) s).2).1 ≠ ScanReturn.ok true)
  ∧ (∀ (cfg : Config) (s : State) (sz1 sz2 : Int) (lines extra : List String),
      (∀ l ∈ extra, encoderMatches cfg l = false) →
      (isEncoderFailed cfg (some sz2) (some (lines ++ extra))
          (isEncoderFailed cfg (some sz1) (some lines) s).2).1 ≠ ScanReturn.ok true) := by
  constructor
  · intro cfg s sz1 sz2 lines extra hsz hextra
    set s1 := (isMonitorSleeping cfg (some sz1) (some lines) s).2 with hs1
    by_cases hcorr2 : (lines ++ extra).any lineTooLong = true
    · have hscan : scannerErr (lines ++ extra) = some "bufio.Scanner: token too long" := by
        simp [scannerErr, hcorr2]
      simp only [isMonitorSleeping, hscan]
      split <;> split <;> simp
    · rw [Bool.not_eq_true] at hcorr2
      have hcorr1 : lines.any lineTooLong = false := by
        rw [List.any_append, Bool.or_eq_false_iff] at hcorr2
        exact hcorr2.1
      have hscan : scannerErr (lines ++ extra) = none := by simp [scannerErr, hcorr2]
      have hnorot : ¬ (sz2 < s1.lastLogSize) := by
        rw [hs1, isMonitorSleeping_lastLogSize]
        omega
      by_cases hL : (scanLatest (monitorMatches cfg) lines).isZero = true
      · simp only [isMonitorSleeping, hscan, scanLatest_append_unmatched _ _ _ hextra,
          if_neg hnorot, hL]
        simp
      · rw [Bool.not_eq_true] at hL
        obtain ⟨hz, ha⟩ := isMonitorSleeping_post cfg sz1 lines s hcorr1 hL
        rw [← hs1] at hz ha
        simp only [isMonitorSleeping, hscan, scanLatest_append_unmatched _ _ _ hextra,
          if_neg hnorot, hL, hz, ha]
        simp
  · intro cfg s sz1 sz2 lines extra hextra
    set s1 := (isEncoderFailed cfg (some sz1) (some lines) s).2 with hs1
    by_cases hcorr2 : (lines ++ extra).any lineTooLong = true
    · have hscan : scannerErr (lines ++ extra) = some "bufio.Scanner: token too long" := by
        simp [scannerErr, hcorr2]
      simp only [isEncoderFailed, hscan]
      split <;> simp
    · rw [Bool.not_eq_true] at hcorr2
      have hcorr1 : lines.any lineTooLong = false := by
        rw [List.any_append, Bool.or_eq_false_iff] at hcorr2
        exact hcorr2.1
      have hscan : scannerErr (lines ++ extra) = none := by simp [scannerErr, hcorr2]
      by_cases hL : (scanLatest (encoderMatches cfg) lines).isZero = true
      · simp only [isEncoderFailed, hscan, scanLatest_append_unmatched _ _ _ hextra, hL]
        simp
      · rw [Bool.not_eq_true] at hL
        obtain ⟨hz, ha⟩ := isEncoderFailed_post cfg sz1 lines s hcorr1 hL
        rw [← hs1] at hz ha
        simp only [isEncoderFailed, hscan, scanLatest_append_unmatched _ _ _ hextra, hL, hz, ha]
        simp

/-- C1 witness: a concrete triggering scan followed by a repeat scan of the
same content reports not-triggered, for both categories. -/
theorem c1_dedup_idempotent_witness :
    (isMonitorSleeping ⟨10, "p", "Couldn't find monitor", "enc", "zz", 0, "", "", "", true, true⟩
        (some 40) (some ["[2025-01-01 10:00:00.000] Error: Couldn't find monitor"])
        ((isMonitorSleeping ⟨10, "p", "Couldn't find monitor", "enc", "zz", 0, "", "", "", true, true⟩
          (some 40) (some ["[2025-01-01 10:00:00.000] Error: Couldn't find monitor"])
          ⟨0, GoTime.zeroValue, GoTime.zeroValue⟩).2)).1 ≠ ScanReturn.ok true
  ∧ (isEncoderFailed ⟨10, "p", "mon", "Fatal: encoder failed", "zz", 0, "", "", "", true, true⟩
        (some 40) (some ["[2025-01-01 10:00:00.000] Fatal: encoder failed"])
        ((isEncoderFailed ⟨10, "p", "mon", "Fatal: encoder failed", "zz", 0, "", "", "", true, true⟩
          (some 40) (some ["[2025-01-01 10:00:00.000] Fatal: encoder failed"])
          ⟨0, GoTime.zeroValue, GoTime.zeroValue⟩).2)).1 ≠ ScanReturn.ok true := by
  constructor
  · have h := c1_dedup_idempotent.1
      ⟨10, "p", "Couldn't find monitor", "enc", "zz", 0, "", "", "", true, true⟩
      ⟨0, GoTime.zeroValue, GoTime.zeroValue⟩ 40 40
      ["[2025-01-01 10:00:00.000] Error: Couldn't find monitor"] []
      (le_refl _) (by intro l hl; simp at hl)
    simpa using h
  · have h := c1_dedup_idempotent.2
      ⟨10, "p", "mon", "Fatal: encoder failed", "zz", 0, "", "", "", true, true⟩
      ⟨0, GoTime.zeroValue, GoTime.zeroValue⟩ 40 40
      ["[2025-01-01 10:00:00.000] Fatal: encoder failed"] []
      (by intro l hl; simp at hl)
    simpa using h


/-- C2 counterexample: a fresh stat reporting size 5 while the stored
`lastLogSize` is 10 (a strict decrease) does not reset
`lastEncoderFailureTime` in the encoder-failure scan — the timestamp
survives the scan, so the claimed reset before dedup evaluation does not
happen in `isEncoderFailed`. -/
theorem c2_rotation_reset_counterexample :
    (5 : Int) < (10 : Int)
  ∧ ((isEncoderFailed ⟨10, "p", "mon", "enc", "zz", 0, "", "", "", true, true⟩
        (some 5) (some [])
        ⟨10, GoTime.zeroValue, ⟨2025, 1, 1, 10, 0, 0, 0⟩⟩).2).lastEncoderFailureTime
      = ⟨2025, 1, 1, 10, 0, 0, 0⟩
  ∧ GoTime.isZero ⟨2025, 1, 1, 10, 0, 0, 0⟩ = false := by
  refine ⟨by decide, by decide, by decide⟩

/-- C2 (amended): only the monitor-sleep scan resets the dedup timestamps on
a size decrease — a shrunken stat makes `isMonitorSleeping` behave exactly
as if both dedup timestamps had been reset to zero before the scan — while
the encoder-failure scan ignores the stored size entirely: its result and
dedup timestamps are independent of the stat value, which it merely records
in `lastLogSize`. -/
theorem c2_rotation_reset_amended :
    (∀ (cfg : Config) (size : Int) (openRes : Option (List String)) (s : State),
      size < s.lastLogSize →
      isMonitorSleeping cfg (some size) openRes s
        = isMonitorSleeping cfg (some size) openRes (resetMonitorTracking s))
  ∧ (∀ (cfg : Config) (size size' : Int) (openRes : Option (List String)) (s : State),
      (isEncoderFailed cfg (some size) openRes s).1
          = (isEncoderFailed cfg (some size') openRes s).1
        ∧ (isEncoderFailed cfg (some size) openRes s).2
          = { (isEncoderFailed cfg (some size') openRes s).2 with lastLogSize := size }) := by
  constructor
  · intro cfg size openRes s h
    have h2 : size < (resetMonitorTracking s).lastLogSize := h
    have hreset : resetMonitorTracking (resetMonitorTracking s) = resetMonitorTracking s := rfl
    simp only [isMonitorSleeping, if_pos h, if_pos h2, hreset]
  · intro cfg size size' openRes s
    cases openRes with
    | none => exact ⟨rfl, rfl⟩
    | some lines =>
      constructor
      · simp only [isEncoderFailed]
        repeat' first | rfl | split
      · simp only [isEncoderFailed]
        repeat' first | rfl | split

/-- C2 witness: the amended monitor-reset equation evaluated at a concrete
shrinking scan, and the encoder-scan size-independence at two concrete
sizes. -/
theorem c2_rotation_reset_amended_witness :
    isMonitorSleeping ⟨10, "p", "mon", "enc", "zz", 0, "", "", "", true, true⟩
        (some 5) (some []) ⟨10, ⟨2025, 1, 1, 10, 0, 0, 0⟩, ⟨2025, 1, 1, 10, 0, 0, 0⟩⟩
      = isMonitorSleeping ⟨10, "p", "mon", "enc", "zz", 0, "", "", "", true, true⟩
        (some 5) (some [])
        (resetMonitorTracking ⟨10, ⟨2025, 1, 1, 10, 0, 0, 0⟩, ⟨2025, 1, 1, 10, 0, 0, 0⟩⟩)
  ∧ (isEncoderFailed ⟨10, "p", "mon", "enc", "zz", 0, "", "", "", true, true⟩
        (some 5) (some []) ⟨10, GoTime.zeroValue, GoTime.zeroValue⟩).1
      = (isEncoderFailed ⟨10, "p", "mon", "enc", "zz", 0, "", "", "", true, true⟩
        (some 99) (some []) ⟨10, GoTime.zeroValue, GoTime.zeroValue⟩).1 :=
  ⟨c2_rotation_reset_amended.1 _ 5 (some []) _ (by decide),
   (c2_rotation_reset_amended.2 _ 5 99 (some []) _).1⟩

theorem monitor_step_mono (cfg : Config) (statRes : Option Int)
    (openRes : Option (List String)) (s : State)
    (h : rotationTriggered s (.monitor statRes openRes) = false) :
    s.lastMonitorMissingTime.toNanos
        ≤ ((isMonitorSleeping cfg statRes openRes s).2).lastMonitorMissingTime.toNanos
      ∧ s.lastEncoderFailureTime.toNanos
        ≤ ((isMonitorSleeping cfg statRes openRes s).2).lastEncoderFailureTime.toNanos := by
  cases statRes with
  | none => exact ⟨le_refl _, le_refl _⟩
  | some size =>
    have hrot : ¬ (size < s.lastLogSize) := by
      simpa [rotationTriggered] using h
    cases openRes with
    | none => simp only [isMonitorSleeping, if_neg hrot]; exact ⟨le_refl _, le_refl _⟩
    | some lines =>
      simp only [isMonitorSleeping, if_neg hrot]
      split
      · split <;> exact ⟨le_refl _, le_refl _⟩
      · split
        · exact ⟨le_refl _, le_refl _⟩
        · split
          · rename_i hcond
            refine ⟨?_, le_refl _⟩
            rw [Bool.or_eq_true] at hcond
            rcases hcond with hz | ha
            · have : s.lastMonitorMissingTime.toNanos = GoTime.zeroValue.toNanos :=
                of_decide_eq_true hz
              rw [this]
              exact scanLatest_le _ _
            · exact le_of_lt (of_decide_eq_true ha)
          · exact ⟨le_refl _, le_refl _⟩

theorem encoder_step_mono (cfg : Config) (statRes : Option Int)
    (openRes : Option (List String)) (s : State) :
    s.lastMonitorMissingTime.toNanos
        ≤ ((isEncoderFailed cfg statRes openRes s).2).lastMonitorMissingTime.toNanos
      ∧ s.lastEncoderFailureTime.toNanos
        ≤ ((isEncoderFailed cfg statRes openRes s).2).lastEncoderFailureTime.toNanos := by
  cases statRes with
  | none => exact ⟨le_refl _, le_refl _⟩
  | some size =>
    cases openRes with
    | none => exact ⟨le_refl _, le_refl _⟩
    | some lines =>
      simp only [isEncoderFailed]
      split
      · split <;> exact ⟨le_refl _, le_refl _⟩
      · split
        · exact ⟨le_refl _, le_refl _⟩
        · split
          · rename_i hcond
            refine ⟨le_refl _, ?_⟩
            rw [Bool.or_eq_true] at hcond
            rcases hcond with hz | ha
            · have : s.lastEncoderFailureTime.toNanos = GoTime.zeroValue.toNanos :=
                of_decide_eq_true hz
              rw [this]
              exact scanLatest_le _ _
            · exact le_of_lt (of_decide_eq_true ha)
          · exact ⟨le_refl _, le_refl _⟩

/-- C3 counterexample: a rotation reset decreases the stored timestamp — a
monitor scan that observes size 0 after `lastLogSize = 10` resets
`lastMonitorMissingTime` from a 2025 occurrence to the zero value, a strict
decrease across the one-scan sequence. -/
theorem c3_monotonic_counterexample :
    ((runScans ⟨10, "p", "mon", "enc", "zz", 0, "", "", "", true, true⟩
        ⟨10, ⟨2025, 1, 1, 10, 0, 0, 0⟩, GoTime.zeroValue⟩
        [.monitor (some 0) (some [])]).lastMonitorMissingTime).toNanos
      < (GoTime.mk 2025 1 1 10 0 0 0).toNanos := by
  decide

/-- C3 (amended): across any sequence of scans in which no monitor scan
observes a stat size strictly below the stored `lastLogSize` (so the
rotation reset never fires), both per-category dedup timestamps are
non-decreasing: they are only overwritten by a strictly later parsed
occurrence. -/
theorem c3_monotonic_amended (cfg : Config) (s : State) (calls : List ScanCall)
    (h : noRotationFrom cfg s calls = true) :
    s.lastMonitorMissingTime.toNanos
        ≤ (runScans cfg s calls).lastMonitorMissingTime.toNanos
      ∧ s.lastEncoderFailureTime.toNanos
        ≤ (runScans cfg s calls).lastEncoderFailureTime.toNanos := by
  induction calls generalizing s with
  | nil => exact ⟨le_refl _, le_refl _⟩
  | cons call rest ih =>
    rw [noRotationFrom, Bool.and_eq_true] at h
    obtain ⟨hhead, htail⟩ := h
    have hstep :
        s.lastMonitorMissingTime.toNanos ≤ (scanStep cfg s call).lastMonitorMissingTime.toNanos
          ∧ s.lastEncoderFailureTime.toNanos
            ≤ (scanStep cfg s call).lastEncoderFailureTime.toNanos := by
      cases call with
      | monitor statRes openRes =>
        exact monitor_step_mono cfg statRes openRes s (by simpa using hhead)
      | encoder statRes openRes =>
        exact encoder_step_mono cfg statRes openRes s
    have hrest := ih (scanStep cfg s call) htail
    exact ⟨le_trans hstep.1 hrest.1, le_trans hstep.2 hrest.2⟩

/-- C3 witness: the amended monotonicity evaluated on a concrete two-scan
sequence in which an encoder failure is detected and then deduplicated. -/
theorem c3_monotonic_amended_witness :
    noRotationFrom ⟨10, "p", "mon", "Fatal enc", "zz", 0, "", "", "", true, true⟩
        ⟨0, GoTime.zeroValue, GoTime.zeroValue⟩
        [.encoder (some 30) (some ["[2025-01-01 10:00:00.000] Fatal enc"]),
         .encoder (some 30) (some ["[2025-01-01 10:00:00.000] Fatal enc"])] = true
  ∧ (GoTime.zeroValue.toNanos
        ≤ (runScans ⟨10, "p", "mon", "Fatal enc", "zz", 0, "", "", "", true, true⟩
            ⟨0, GoTime.zeroValue, GoTime.zeroValue⟩
            [.encoder (some 30) (some ["[2025-01-01 10:00:00.000] Fatal enc"]),
             .encoder (some 30) (some ["[2025-01-01 10:00:00.000] Fatal enc"])]
          ).lastMonitorMissingTime.toNanos) :=
  ⟨by decide,
   (c3_monotonic_amended _ ⟨0, GoTime.zeroValue, GoTime.zeroValue⟩ _ (by decide)).1⟩


theorem isBufferOverflow_tokenTooLong :
    isBufferOverflow "bufio.Scanner: token too long" = true := by
  decide

theorem isMonitorSleeping_corrupted_iff (cfg : Config) (size : Int) (lines : List String)
    (s : State) :
    (isMonitorSleeping cfg (some size) (some lines) s).1 = ScanReturn.corrupted
      ↔ lines.any lineTooLong = true := by
  by_cases hany : lines.any lineTooLong = true
  · have hscan : scannerErr lines = some "bufio.Scanner: token too long" := by
      simp [scannerErr, hany]
    simp only [isMonitorSleeping, hscan]
    simp [isBufferOverflow_tokenTooLong, hany]
  · rw [Bool.not_eq_true] at hany
    have hscan : scannerErr lines = none := by simp [scannerErr, hany]
    simp only [isMonitorSleeping, hscan, hany, Bool.false_eq_true, iff_false]
    repeat' first | simp | split

theorem isEncoderFailed_corrupted_iff (cfg : Config) (size : Int) (lines : List String)
    (s : State) :
    (isEncoderFailed cfg (some size) (some lines) s).1 = ScanReturn.corrupted
      ↔ lines.any lineTooLong = true := by
  by_cases hany : lines.any lineTooLong = true
  · have hscan : scannerErr lines = some "bufio.Scanner: token too long" := by
      simp [scannerErr, hany]
    simp only [isEncoderFailed, hscan]
    simp [isBufferOverflow_tokenTooLong, hany]
  · rw [Bool.not_eq_true] at hany
    have hscan : scannerErr lines = none := by simp [scannerErr, hany]
    simp only [isEncoderFailed, hscan, hany, Bool.false_eq_true, iff_false]
    repeat' first | simp | split

/-- C4: Corruption handling — a line exceeding the 1 MiB bound is a too-long
line; a scan (of either category) reports the `corrupted` condition exactly
when some line is too long (so it is distinct from timestamp parse errors,
which never produce it, and from the `statErr`/`openErr`/`scanErr`
conditions); and `handleCorruptedLog` truncates the log before invoking the
restart sequence, returning the truncation error without restarting when
truncation fails. -/
theorem c4_corruption_handling :
    (∀ line : String, maxTokenSize < line.utf8ByteSize → lineTooLong line = true)
  ∧ (∀ (cfg : Config) (size : Int) (lines : List String) (s : State),
      ((isMonitorSleeping cfg (some size) (some lines) s).1 = ScanReturn.corrupted
        ↔ lines.any lineTooLong = true)
      ∧ ((isEncoderFailed cfg (some size) (some lines) s).1 = ScanReturn.corrupted
        ↔ lines.any lineTooLong = true))
  ∧ (∀ w : RestartWorld,
      handleCorruptedLog none w
        = (restartSunshineSystemctlOnly w, [CorruptStep.truncateLog, CorruptStep.invokeRestart]))
  ∧ (∀ (e : String) (w : RestartWorld),
      handleCorruptedLog (some e) w = (Except.error e, [])) := by
  refine ⟨?_, ?_, ?_, ?_⟩
  · intro line h
    rw [lineTooLong]
    exact decide_eq_true (le_of_lt h)
  · intro cfg size lines s
    exact ⟨isMonitorSleeping_corrupted_iff cfg size lines s,
           isEncoderFailed_corrupted_iff cfg size lines s⟩
  · intro w
    rfl
  · intro e w
    rfl

theorem utf8Len_replicate (n : Nat) (c : Char) :
    String.utf8Len (List.replicate n c) = n * c.utf8Size := by
  induction n with
  | zero => simp
  | succ k ih => simp [List.replicate, ih, Nat.succ_mul, Nat.add_comm]

theorem lineTooLong_replicate :
    lineTooLong (String.mk (List.replicate 2000000 'a')) = true := by
  rw [lineTooLong]
  have hsize : (String.mk (List.replicate 2000000 'a')).utf8ByteSize = 2000000 := by
    rw [String.utf8ByteSize_mk, utf8Len_replicate]
    decide
  rw [hsize]
  decide

/-- C4 witness: the spec scenario — a single 2,000,000-byte line makes the
encoder scan report the corruption condition. -/
theorem c4_corruption_handling_witness :
    (isEncoderFailed ⟨10, "p", "mon", "enc", "zz", 0, "", "", "", true, true⟩
        (some 2000000) (some [String.mk (List.replicate 2000000 'a')])
        ⟨0, GoTime.zeroValue, GoTime.zeroValue⟩).1 = ScanReturn.corrupted :=
  ((c4_corruption_handling.2.1 ⟨10, "p", "mon", "enc", "zz", 0, "", "", "", true, true⟩
      2000000 [String.mk (List.replicate 2000000 'a')]
      ⟨0, GoTime.zeroValue, GoTime.zeroValue⟩).2).mpr
    (by rw [List.any_cons, lineTooLong_replicate, Bool.true_or])


theorem waitPoll_eq_none_iff (f : Nat → Bool) (start fuel : Nat) :
    waitPoll f start fuel = none ↔ ∀ k, start ≤ k → k < start + fuel → f k = false := by
  induction fuel generalizing start with
  | zero =>
    constructor
    · intro _ k h1 h2
      omega
    · intro _
      rfl
  | succ n ih =>
    rw [waitPoll]
    by_cases h : f start = true
    · rw [if_pos h]
      constructor
      · intro hcontra
        exact absurd hcontra (by simp)
      · intro hall
        exact absurd (hall start (le_refl _) (by omega)) (by simp [h])
    · rw [if_neg h, ih (start + 1)]
      rw [Bool.not_eq_true] at h
      constructor
      · intro hall k h1 h2
        rcases Nat.eq_or_lt_of_le h1 with heq | hlt
        · rw [← heq]
          exact h
        · exact hall k hlt (by omega)
      · intro hall k h1 h2
        exact hall k (by omega) (by omega)

theorem waitPoll_eq_some (f : Nat → Bool) (start fuel j : Nat)
    (h : waitPoll f start fuel = some j) :
    start ≤ j ∧ j < start + fuel ∧ f j = true
      ∧ ∀ k, start ≤ k → k < j → f k = false := by
  induction fuel generalizing start with
  | zero => exact absurd h (by simp [waitPoll])
  | succ n ih =>
    rw [waitPoll] at h
    by_cases hf : f start = true
    · rw [if_pos hf] at h
      have hj : start = j := by injection h
      subst hj
      exact ⟨le_refl _, by omega, hf, fun k h1 h2 => by omega⟩
    · rw [if_neg hf] at h
      obtain ⟨h1, h2, h3, h4⟩ := ih (start + 1) h
      rw [Bool.not_eq_true] at hf
      refine ⟨by omega, by omega, h3, ?_⟩
      intro k hk1 hk2
      rcases Nat.eq_or_lt_of_le hk1 with heq | hlt
      · rw [← heq]
        exact hf
      · exact h4 k hlt hk2

/-- C7: Service activation polling — `waitForServiceActive` (invoked with the
default 30-second bound by the restart path) returns the timeout error
exactly when no poll within the bound reports active, and a success return
names the first second at which a poll reported active. -/
theorem c7_service_activation_polling (serviceName : String) (timeoutSeconds : Nat)
    (isActive : Nat → Bool) :
    (waitForServiceActive serviceName timeoutSeconds isActive = none
      ↔ ∀ i, i < timeoutSeconds → isActive i = false)
  ∧ (∀ i, waitForServiceActive serviceName timeoutSeconds isActive = some i →
      i < timeoutSeconds ∧ isActive i = true ∧ ∀ j, j < i → isActive j = false) := by
  constructor
  · rw [waitForServiceActive, waitPoll_eq_none_iff]
    constructor
    · intro hall i hi
      exact hall i (Nat.zero_le _) (by omega)
    · intro hall k _ hk
      exact hall k (by omega)
  · intro i h
    rw [waitForServiceActive] at h
    obtain ⟨h1, h2, h3, h4⟩ := waitPoll_eq_some isActive 0 timeoutSeconds i h
    exact ⟨by omega, h3, fun j hj => h4 j (Nat.zero_le _) hj⟩

/-- C7 witness: with a service becoming active at the third poll, the wait
returns success at index 2 and the characterization confirms minimality. -/
theorem c7_service_activation_polling_witness :
    waitForServiceActive "sunshine" 30 (fun i => i == 2) = some 2
  ∧ (2 < 30 ∧ (2 == 2) = true ∧ ∀ j, j < 2 → (j == 2) = false) :=
  ⟨by decide,
   (c7_service_activation_polling "sunshine" 30 (fun i => i == 2)).2 2 (by decide)⟩

/-- C5 counterexample: `restartSunshineSystemctlOnly` returns success in a
world where the restart command succeeds and every `is-active` poll reports
active, yet the process table contains no entry named `sunshine` — the
systemctl-only sequence never re-enumerates processes, so "zero matching
processes" does not prevent a success return. -/
theorem c5_restart_verification_counterexample :
    restartSunshineSystemctlOnly
        ⟨true, fun _ => true, [⟨"1234", true, some "firefox\n"⟩]⟩ = Except.ok ()
  ∧ getSunshinePIDs [⟨"1234", true, some "firefox\n"⟩] = [] := by
  exact ⟨rfl, rfl⟩

/-- C5 (amended): the manual restart sequence (`restartSunshineManual`)
never returns success when the final process re-enumeration is empty, while
the systemctl-only sequence verifies activation instead: its success implies
the restart command succeeded and some `is-active` poll within the 30-second
bound reported active, with no claim about the process table. -/
theorem c5_restart_verification_amended :
    (∀ w : SunriseMid.ManualWorld,
      (SunriseMid.restartSunshineManual w).1 = Except.ok () →
        getSunshinePIDs w.fsVerifyRunning ≠ [])
  ∧ (∀ w : RestartWorld,
      restartSunshineSystemctlOnly w = Except.ok () →
        w.restartOk = true ∧ ∃ i, i < 30 ∧ w.isActive i = true) := by
  constructor
  · intro w h
    rw [SunriseMid.restartSunshineManual] at h
    cases hstart : w.startErr with
    | some e =>
      rw [hstart] at h
      simp at h
    | none =>
      rw [hstart] at h
      by_cases hcount : countSunshineProcesses w.fsVerifyRunning = 0
      · rw [if_pos hcount] at h
        simp at h
      · intro hnil
        exact hcount (by simp [countSunshineProcesses, hnil])
  · intro w h
    rw [restartSunshineSystemctlOnly, waitForServiceActive] at h
    by_cases hr : w.restartOk = true
    · refine ⟨hr, ?_⟩
      rw [hr] at h
      simp only [Bool.not_true, Bool.false_eq_true, if_false] at h
      cases hw : waitPoll w.isActive 0 30 with
      | none =>
        rw [hw] at h
        exact absurd h (by simp)
      | some i =>
        obtain ⟨h1, h2, h3, h4⟩ := waitPoll_eq_some w.isActive 0 30 i hw
        exact ⟨i, by omega, h3⟩
    · rw [Bool.not_eq_true] at hr
      rw [hr] at h
      simp at h

/-- C5 witness: the amended guarantees evaluated at concrete worlds — a
manual restart finishing with one live `sunshine` process, and a
systemctl-only restart whose first poll is active. -/
theorem c5_restart_verification_amended_witness :
    getSunshinePIDs
        ((⟨none, [], [], fun _ _ => false, [], none, none,
          [⟨"7", true, some "sunshine\n"⟩]⟩ : SunriseMid.ManualWorld).fsVerifyRunning) ≠ []
  ∧ ((⟨true, fun _ => true, []⟩ : RestartWorld).restartOk = true
      ∧ ∃ i, i < 30 ∧ (⟨true, fun _ => true, []⟩ : RestartWorld).isActive i = true) :=
  ⟨c5_restart_verification_amended.1
      ⟨none, [], [], fun _ _ => false, [], none, none, [⟨"7", true, some "sunshine\n"⟩]⟩ rfl,
   c5_restart_verification_amended.2 ⟨true, fun _ => true, []⟩ rfl⟩


theorem signalledWith_nil (sig : Nat) : signalledWith sig [] = [] := rfl

theorem signalledWith_append (sig : Nat) (t1 t2 : List KillAction) :
    signalledWith sig (t1 ++ t2) = signalledWith sig t1 ++ signalledWith sig t2 := by
  simp [signalledWith, List.filterMap_append]

theorem signalledWith_enumerate (sig : Nat) : signalledWith sig [.enumerate] = [] := rfl

theorem signalledWith_sleep (sig n : Nat) : signalledWith sig [.sleepSeconds n] = [] := rfl

theorem signalledWith_signalEach_self (kf : Int → Nat → Bool) (sig : Nat) (pids : List Int) :
    signalledWith sig (signalEach kf sig pids) = pids := by
  induction pids with
  | nil => rfl
  | cons p ps ih => simp [signalEach, signalledWith, List.filterMap_cons] at ih ⊢; exact ih

theorem signalledWith_signalEach_other (kf : Int → Nat → Bool) (sig sig' : Nat)
    (h : sig' ≠ sig) (pids : List Int) :
    signalledWith sig (signalEach kf sig' pids) = [] := by
  induction pids with
  | nil => rfl
  | cons p ps ih => simp [signalEach, signalledWith, List.filterMap_cons, h] at ih ⊢; exact ih

theorem mem_signalEach (kf : Int → Nat → Bool) (sig : Nat) (pids : List Int)
    (a : KillAction) (h : a ∈ signalEach kf sig pids) :
    ∃ pid ok, a = KillAction.signal pid sig ok := by
  induction pids with
  | nil => exact absurd h (by simp [signalEach])
  | cons p ps ih =>
    rw [signalEach, List.mem_cons] at h
    rcases h with h | h
    · exact ⟨p, !kf p sig, h⟩
    · exact ih h

/-- C6: Graduated kill — `killAllSunshineProcesses` never aborts (its error
result is always `nil`, regardless of individual `kill` failures); the PIDs
signalled with SIGTERM (15) are exactly the fresh first enumeration, the
PIDs signalled with SIGKILL (9) are exactly the fresh re-enumeration taken
after the 2-second wait (and none when the first enumeration was empty); and
when processes were found the action trace is: enumerate, the SIGTERMs, the
2-second sleep, the re-enumeration, then only SIGKILLs. -/
theorem c6_graduated_kill (fs1 fs2 : ProcFS) (killFails : Int → Nat → Bool) :
    (killAllSunshineProcesses fs1 fs2 killFails).2 = Except.ok ()
  ∧ signalledWith 15 (killAllSunshineProcesses fs1 fs2 killFails).1
      = (if (getSunshinePIDs fs1).length = 0 then [] else getSunshinePIDs fs1)
  ∧ signalledWith 9 (killAllSunshineProcesses fs1 fs2 killFails).1
      = (if (getSunshinePIDs fs1).length = 0 then [] else getSunshinePIDs fs2)
  ∧ ((getSunshinePIDs fs1).length ≠ 0 →
      ∃ pre post,
        (killAllSunshineProcesses fs1 fs2 killFails).1
            = [KillAction.enumerate] ++ pre
              ++ [KillAction.sleepSeconds 2, KillAction.enumerate] ++ post
          ∧ (∀ a ∈ pre, ∃ pid ok, a = KillAction.signal pid 15 ok)
          ∧ (∀ a ∈ post, ∃ pid ok, a = KillAction.signal pid 9 ok)) := by
  by_cases hemp : (getSunshinePIDs fs1).length = 0
  · refine ⟨?_, ?_, ?_, ?_⟩
    · simp [killAllSunshineProcesses, hemp]
    · simp [killAllSunshineProcesses, hemp, signalledWith]
    · simp [killAllSunshineProcesses, hemp, signalledWith]
    · intro h
      exact absurd hemp h
  · have hkill : (killAllSunshineProcesses fs1 fs2 killFails).1
        = [KillAction.enumerate] ++ signalEach killFails 15 (getSunshinePIDs fs1)
          ++ [KillAction.sleepSeconds 2, KillAction.enumerate]
          ++ (if (getSunshinePIDs fs2).length > 0
              then signalEach killFails 9 (getSunshinePIDs fs2) else []) := by
      simp [killAllSunshineProcesses, hemp]
    have hsw2 : signalledWith 15 [KillAction.sleepSeconds 2, KillAction.enumerate] = [] := rfl
    have hsw9 : signalledWith 9 [KillAction.sleepSeconds 2, KillAction.enumerate] = [] := rfl
    refine ⟨?_, ?_, ?_, ?_⟩
    · simp [killAllSunshineProcesses, hemp]
    · rw [hkill, if_neg hemp]
      rw [signalledWith_append, signalledWith_append, signalledWith_append,
        signalledWith_enumerate, signalledWith_signalEach_self, hsw2]
      by_cases hrem : (getSunshinePIDs fs2).length > 0
      · rw [if_pos hrem, signalledWith_signalEach_other killFails 15 9 (by decide)]
        simp
      · rw [if_neg hrem, signalledWith_nil]
        simp
    · rw [hkill, if_neg hemp]
      rw [signalledWith_append, signalledWith_append, signalledWith_append,
        signalledWith_enumerate, signalledWith_signalEach_other killFails 9 15 (by decide),
        hsw9]
      by_cases hrem : (getSunshinePIDs fs2).length > 0
      · rw [if_pos hrem, signalledWith_signalEach_self]
        have : (getSunshinePIDs fs2) ≠ [] := by
          intro hnil
          rw [hnil] at hrem
          simp at hrem
        simp
      · rw [if_neg hrem, signalledWith_nil]
        have hn : getSunshinePIDs fs2 = [] := by
          rw [Nat.not_lt, Nat.le_zero, List.length_eq_zero] at hrem
          exact hrem
        simp [hn]
    · intro _
      refine ⟨signalEach killFails 15 (getSunshinePIDs fs1),
        (if (getSunshinePIDs fs2).length > 0
          then signalEach killFails 9 (getSunshinePIDs fs2) else []), ?_, ?_, ?_⟩
      · rw [hkill]
      · intro a ha
        exact mem_signalEach killFails 15 _ a ha
      · intro a ha
        by_cases hrem : (getSunshinePIDs fs2).length > 0
        · rw [if_pos hrem] at ha
          exact mem_signalEach killFails 9 _ a ha
        · rw [if_neg hrem] at ha
          exact absurd ha (by simp)

/-- C6 witness: a concrete run with one process at the first enumeration and
a different PID still present at the re-enumeration — the sequence completes
without aborting and its trace is SIGTERMs, the 2-second sleep and
re-enumeration, then SIGKILLs. -/
theorem c6_graduated_kill_witness :
    (killAllSunshineProcesses
        [⟨"7", true, some "sunshine\n"⟩]
        [⟨"9", true, some "sunshine\n"⟩] (fun _ _ => false)).2 = Except.ok ()
  ∧ (∃ pre post,
      (killAllSunshineProcesses
          [⟨"7", true, some "sunshine\n"⟩]
          [⟨"9", true, some "sunshine\n"⟩] (fun _ _ => false)).1
          = [KillAction.enumerate] ++ pre
            ++ [KillAction.sleepSeconds 2, KillAction.enumerate] ++ post
        ∧ (∀ a ∈ pre, ∃ pid ok, a = KillAction.signal pid 15 ok)
        ∧ (∀ a ∈ post, ∃ pid ok, a = KillAction.signal pid 9 ok)) :=
  ⟨(c6_graduated_kill [⟨"7", true, some "sunshine\n"⟩]
      [⟨"9", true, some "sunshine\n"⟩] (fun _ _ => false)).1,
   (c6_graduated_kill [⟨"7", true, some "sunshine\n"⟩]
      [⟨"9", true, some "sunshine\n"⟩] (fun _ _ => false)).2.2.2 (by decide)⟩

/-- C8: Wake cooldown — with the 2-minute cooldown passed by
`runWakeOnConnect`, `shouldWakeMonitor` returns true exactly when both the
liveness timestamp (`lastMainLoopTime`) and the last wake attempt
(`lastWakeTime`) are at least the cooldown window old; equivalently it skips
waking whenever either is within the window of the current time. -/
theorem c8_wake_cooldown (now lastMainLoopTime lastWakeTime : GoTime) :
    shouldWakeMonitor wakeCooldownPeriod now lastMainLoopTime lastWakeTime = true
      ↔ (wakeCooldownPeriod ≤ timeSince now lastMainLoopTime
          ∧ wakeCooldownPeriod ≤ timeSince now lastWakeTime) := by
  rw [shouldWakeMonitor]
  by_cases h1 : timeSince now lastMainLoopTime < wakeCooldownPeriod
  · rw [if_pos h1]
    simp
    omega
  · rw [if_neg h1]
    by_cases h2 : timeSince now lastWakeTime < wakeCooldownPeriod
    · rw [if_pos h2]
      simp
      omega
    · rw [if_neg h2]
      simp
      omega

/-- C8 witness: with both timestamps at the zero value and the current time
in 2025, both ages exceed two minutes and the wake proceeds. -/
theorem c8_wake_cooldown_witness :
    shouldWakeMonitor wakeCooldownPeriod ⟨2025, 1, 1, 10, 0, 0, 0⟩
        GoTime.zeroValue GoTime.zeroValue = true :=
  (c8_wake_cooldown ⟨2025, 1, 1, 10, 0, 0, 0⟩ GoTime.zeroValue GoTime.zeroValue).mpr
    ⟨by decide, by decide⟩

/-- C9 counterexample: in the current `main.go`, a stat failure of the log
during the encoder scan does not exit the periodic loop — the tick is logged
and the loop continues, contradicting the claimed fatal exit. -/
theorem c9_log_access_counterexample :
    (mainTick true ScanReturn.statErr).1 = TickOutcome.continueTick
  ∧ TickOutcome.continueTick ≠ TickOutcome.fatalExit := by
  exact ⟨rfl, by decide⟩

/-- C9 (amended): on a log-access failure the current periodic loop logs the
error and continues to the next tick without invoking the restart (only the
legacy variant's loop exits fatally via `log.Fatal`), while the wake loop's
`checkForMainLoop` treats an unreadable log as "not yet ready"
(returning false and leaving the liveness timestamp unchanged). -/
theorem c9_log_access_disposition_amended :
    (∀ flag : Bool,
      mainTick flag ScanReturn.statErr = (TickOutcome.continueTick, false)
        ∧ mainTick flag ScanReturn.openErr = (TickOutcome.continueTick, false))
  ∧ (∀ (flag : Bool) (e : String) (encoderScan : Except String Bool),
      SunriseOld.legacyMainTick flag (Except.error e) encoderScan = TickOutcome.fatalExit)
  ∧ (∀ now lastMainLoopTime : GoTime,
      checkForMainLoop none now lastMainLoopTime = (false, lastMainLoopTime)) := by
  refine ⟨?_, ?_, ?_⟩
  · intro flag
    cases flag <;> exact ⟨rfl, rfl⟩
  · intro flag e encoderScan
    rfl
  · intro now lastMainLoopTime
    rfl

/-- C10: Implicit edge case — when `EncoderFailedLogLine2` is the empty
string (its value whenever the option is absent from the configuration),
every line satisfies the encoder-failure match, so the category's
latest-timestamp computation ranges over all lines of the log regardless of
their content. -/
theorem c10_empty_pattern_matches_all (cfg : Config)
    (h : cfg.EncoderFailedLogLine2 = "") :
    (∀ line : String, encoderMatches cfg line = true)
  ∧ (∀ lines : List String,
      scanLatest (encoderMatches cfg) lines = scanLatest (fun _ => true) lines) := by
  have hmatch : ∀ line : String, encoderMatches cfg line = true := by
    intro line
    rw [encoderMatches, h]
    have : goContains line "" = true := by
      rw [goContains]
      cases hl : line.toList with
      | nil => rfl
      | cons c cs => rfl
    rw [this, Bool.or_true]
  refine ⟨hmatch, ?_⟩
  have hstep : latestStep (encoderMatches cfg) = latestStep (fun _ => true) := by
    funext acc line
    rw [latestStep, latestStep, hmatch line]
  intro lines
  rw [scanLatest, scanLatest, hstep]


/-- C10 witness: with the secondary pattern empty, a line that contains
neither configured text still matches and its timestamp is the scan's
latest occurrence. -/
theorem c10_empty_pattern_matches_all_witness :
    (⟨10, "p", "mon", "enc", "", 0, "", "", "", true, true⟩ : Config).EncoderFailedLogLine2 = ""
  ∧ encoderMatches ⟨10, "p", "mon", "enc", "", 0, "", "", "", true, true⟩
      "[2025-01-01 10:00:00.000] some unrelated line" = true :=
  ⟨rfl,
   (c10_empty_pattern_matches_all ⟨10, "p", "mon", "enc", "", 0, "", "", "", true, true⟩ rfl).1
     "[2025-01-01 10:00:00.000] some unrelated line"⟩
